import Mathlib

/-!
Verification of the deepl-mcp-server tool layer (`src/index.ts`).

The development shallowly embeds the request dispatcher, the two tool
handlers (`callTranslateText`, `callListLanguages`), the zod input
schemas, and the centralized error normalizer (`handleToolError`).
JavaScript values that flow through the handlers (tool arguments,
upstream response bodies, error `data`) are modelled by the inductive
`JValue`; JavaScript truthiness, property access and string coercion are
modelled explicitly.  The upstream HTTP layer is a parameter (`Upstream`):
each handler records the requests it issues so that "issues exactly one
POST / no upstream call" claims are statable.
-/

namespace DeepLMcp

/-- A JavaScript/JSON value as it flows through the server: tool-call
arguments, upstream response bodies, and error details. -/
inductive JValue where
  | null : JValue
  | bool (b : Bool) : JValue
  | num (n : Int) : JValue
  | str (s : String) : JValue
  | arr (elems : List JValue) : JValue
  | obj (fields : List (String × JValue)) : JValue

/-- Recognizer for the JavaScript `null` value. -/
def JValue.isNull : JValue → Bool
  | .null => true
  | _ => false

/-- JavaScript truthiness of a `JValue` (`null`, `false`, `0` and `""` are
falsy; arrays and objects are always truthy). -/
def JValue.truthy : JValue → Bool
  | .null => false
  | .bool b => b
  | .num n => n != 0
  | .str s => s ≠ ""
  | .arr _ => true
  | .obj _ => true

/-- First-match association lookup, modelling JavaScript property access
on a plain object. -/
def jGet : List (String × JValue) → String → Option JValue
  | [], _ => none
  | (k, v) :: rest, key => if k = key then some v else jGet rest key

/-- Optional-chained property access `v?.key`: `none` unless `v` is an
object carrying the key. -/
def jGetField : JValue → String → Option JValue
  | .obj fields, key => jGet fields key
  | _, _ => none

/-- JavaScript `String(v)` coercion, as used by template literals. -/
def jsToString : JValue → String
  | .null => "null"
  | .bool true => "true"
  | .bool false => "false"
  | .num n => toString n
  | .str s => s
  | .arr elems =>
      String.intercalate "," (elems.attach.map fun x =>
        if x.1.isNull then "" else jsToString x.1)
  | .obj _ => "[object Object]"
decreasing_by
  have hmem := List.sizeOf_lt_of_mem x.2
  simp only [JValue.arr.sizeOf_spec]
  omega

/-! ## JSON serialization (JavaScript `JSON.stringify`)

`escapeChar` models the escaping `JSON.stringify` applies inside string
literals: `"` and `\` are escaped, the named control characters get their
short escapes, the remaining control characters below U+0020 get a
`\u00xx` escape, and every other character is emitted verbatim. -/

/-- Lowercase hexadecimal digit for `n < 16`. -/
def hexDigitChar (n : Nat) : Char :=
  if n < 10 then Char.ofNat (48 + n) else Char.ofNat (87 + n)

/-- `JSON.stringify` escaping of one character inside a string literal. -/
def escapeChar (c : Char) : List Char :=
  if c = '"' then ['\\', '"']
  else if c = '\\' then ['\\', '\\']
  else if c = '\x08' then ['\\', 'b']
  else if c = '\x0c' then ['\\', 'f']
  else if c = '\n' then ['\\', 'n']
  else if c = '\r' then ['\\', 'r']
  else if c = '\t' then ['\\', 't']
  else if c.toNat < 32 then
    ['\\', 'u', '0', '0', hexDigitChar (c.toNat / 16), hexDigitChar (c.toNat % 16)]
  else [c]

/-- `JSON.stringify` escaping of a character sequence. -/
def escapeList : List Char → List Char
  | [] => []
  | c :: cs => escapeChar c ++ escapeList cs

/-- A `JSON.stringify` string literal: quotes around the escaped body. -/
def jsonQuote (s : String) : String :=
  String.mk ('"' :: (escapeList s.data ++ ['"']))

/-- Compact `JSON.stringify(v)` (no indent argument), used for the
`Details:` line of error responses. -/
def jserialize : JValue → String
  | .null => "null"
  | .bool true => "true"
  | .bool false => "false"
  | .num n => toString n
  | .str s => jsonQuote s
  | .arr elems =>
      "[" ++ String.intercalate "," (elems.attach.map fun x => jserialize x.1) ++ "]"
  | .obj fields =>
      "\x7b" ++ String.intercalate ","
        (fields.attach.map fun f => jsonQuote f.1.1 ++ ":" ++ jserialize f.1.2) ++ "\x7d"
decreasing_by
  · have hmem := List.sizeOf_lt_of_mem x.2
    simp only [JValue.arr.sizeOf_spec]
    omega
  · have hmem := List.sizeOf_lt_of_mem f.2
    simp only [JValue.obj.sizeOf_spec]
    have : sizeOf f.1.2 < sizeOf f.1 := by
      obtain ⟨a, b⟩ := f.1
      simp only [Prod.mk.sizeOf_spec]
      omega
    omega

/-! ## MCP protocol error model

`ErrorCode` lists the `@modelcontextprotocol/sdk` error codes the server
uses; `McpError` carries a code, a message and optional structured data. -/

/-- MCP SDK error codes used by the server. -/
inductive ErrorCode where
  | ParseError : ErrorCode
  | InvalidRequest : ErrorCode
  | MethodNotFound : ErrorCode
  | InvalidParams : ErrorCode
  | InternalError : ErrorCode
deriving DecidableEq, Repr

/-- An `McpError`: protocol error code, message, and optional data
(`none` models the JavaScript `undefined` data field). -/
structure McpError where
  code : ErrorCode
  message : String
  data : Option JValue

/-- One zod validation issue: issue code, path of the offending field
(keys and array indices), and message. -/
inductive PathElem where
  | key (s : String) : PathElem
  | idx (n : Nat) : PathElem
deriving DecidableEq, Repr

/-- A zod validation issue (`ZodError.errors` element). -/
structure ZodIssue where
  code : String
  path : List PathElem
  message : String
deriving DecidableEq, Repr

/-- A path element as it appears in a serialized zod issue. -/
def pathElemToJson : PathElem → JValue
  | .key s => .str s
  | .idx n => .num n

/-- One zod issue as a JSON object. -/
def issueToJson (i : ZodIssue) : JValue :=
  .obj [("code", .str i.code), ("path", .arr (i.path.map pathElemToJson)),
        ("message", .str i.message)]

/-- The `error.errors` array of a `ZodError`, as JSON. -/
def issuesToJson (issues : List ZodIssue) : JValue :=
  .arr (issues.map issueToJson)

/-- An axios HTTP error response: status code and parsed body. -/
structure AxiosResponse where
  status : Nat
  data : JValue

/-- An error value reaching the dispatcher's catch block: an `McpError`
thrown by the dispatcher itself, a `ZodError` from schema validation, an
`AxiosError` from the upstream call (`response = none` models a pure
network/transport failure with no HTTP response), or any other thrown
fault. -/
inductive ThrownError where
  | mcp (e : McpError) : ThrownError
  | zod (issues : List ZodIssue) : ThrownError
  | axios (response : Option AxiosResponse) (message : String) : ThrownError
  | other (message : String) : ThrownError

/-! ## Tool data model

Mirrors the TypeScript interfaces and zod schemas of `src/index.ts`. -/

/-- A validated `translate_text` argument payload
(`TranslateTextInputSchema`): `source_lang = none` models an absent
optional field. -/
structure TranslateRequest where
  text : List String
  target_lang : String
  source_lang : Option String
deriving DecidableEq, Repr

/-- The JSON body of the upstream `POST /v2/translate` request as built
by `callTranslateText` (`source_lang = none` means the key is absent). -/
structure TranslateBody where
  text : List String
  target_lang : String
  source_lang : Option String
deriving DecidableEq, Repr

/-- The `type` filter of `list_languages` (`z.enum(['source', 'target'])`). -/
inductive LangType where
  | source : LangType
  | target : LangType
deriving DecidableEq, Repr

/-- A validated `list_languages` argument payload
(`ListLanguagesInputSchema`). -/
structure ListLanguagesRequest where
  type : Option LangType
deriving DecidableEq, Repr

/-- An outbound HTTP request issued by a handler: the translate POST with
its JSON body, or the languages GET with its optional `type` query
parameter. -/
inductive UpstreamRequest where
  | postTranslate (body : TranslateBody) : UpstreamRequest
  | getLanguages (typeParam : Option LangType) : UpstreamRequest
deriving DecidableEq, Repr

/-- One entry of the upstream `translations` array (`DeepLTranslation`). -/
structure DeepLTranslation where
  detected_source_language : String
  text : String
deriving DecidableEq, Repr

/-- One entry of the upstream languages array (`DeepLLanguage`). -/
structure DeepLLanguage where
  language : String
  name : String
  supports_formality : Bool
deriving DecidableEq, Repr

/-- The upstream DeepL API, as seen by the handlers: each endpoint either
returns a parsed success body or rejects with a thrown error (an axios
error for HTTP/network failures, or any other fault). -/
structure Upstream where
  translate : TranslateBody → Except ThrownError (List DeepLTranslation)
  languages : Option LangType → Except ThrownError (List DeepLLanguage)

/-! ## Zod schema validation

`parseTranslateArgs` and `parseListArgs` embed
`TranslateTextInputSchema.parse` and `ListLanguagesInputSchema.parse`:
they either produce a validated request or the issue list of the thrown
`ZodError`.  The handlers receive `request.params.arguments`, which may
be absent (`none` models the JavaScript `undefined`). -/

/-- The issues of `Except.error`, or `[]` on success. -/
def errList {α : Type} : Except (List ZodIssue) α → List ZodIssue
  | .ok _ => []
  | .error es => es

/-- zod issue for a missing required field. -/
def requiredIssue (k : String) : ZodIssue :=
  ⟨"invalid_type", [.key k], "Required"⟩

/-- zod issue for a field of the wrong type. -/
def invalidTypeIssue (k : String) (expected : String) : ZodIssue :=
  ⟨"invalid_type", [.key k], "Expected " ++ expected⟩

/-- zod issue for a non-string element of the `text` array. -/
def elemIssue (i : Nat) : ZodIssue :=
  ⟨"invalid_type", [.key "text", .idx i], "Expected string"⟩

/-- zod issue for an empty `text` array, with the custom message declared
in `TranslateTextInputSchema`. -/
def tooSmallIssue : ZodIssue :=
  ⟨"too_small", [.key "text"], "The \'text\' array cannot be empty."⟩

/-- `z.string()` on one value. -/
def asString1 : JValue → Option String
  | .str s => some s
  | _ => none

/-- `z.array(z.string())` element validation: every element must be a
string; non-string elements yield one issue each, indexed by position. -/
def asStrings : List JValue → Nat → Except (List ZodIssue) (List String)
  | [], _ => .ok []
  | e :: rest, i =>
      match asString1 e, asStrings rest (i + 1) with
      | some s, .ok ss => .ok (s :: ss)
      | some _, .error es => .error es
      | none, .ok _ => .error [elemIssue i]
      | none, .error es => .error (elemIssue i :: es)

/-- Validation of the `text` field: `z.array(z.string()).min(1, ...)`. -/
def checkText (fields : List (String × JValue)) : Except (List ZodIssue) (List String) :=
  match jGet fields "text" with
  | none => .error [requiredIssue "text"]
  | some (.arr elems) =>
      match asStrings elems 0 with
      | .ok ss => if ss.length < 1 then .error [tooSmallIssue] else .ok ss
      | .error es => .error es
  | some _ => .error [invalidTypeIssue "text" "array"]

/-- Validation of the `target_lang` field: `z.string()`. -/
def checkTargetLang (fields : List (String × JValue)) : Except (List ZodIssue) String :=
  match jGet fields "target_lang" with
  | none => .error [requiredIssue "target_lang"]
  | some (.str s) => .ok s
  | some _ => .error [invalidTypeIssue "target_lang" "string"]

/-- Validation of the `source_lang` field: `z.string().optional()`. -/
def checkSourceLang (fields : List (String × JValue)) :
    Except (List ZodIssue) (Option String) :=
  match jGet fields "source_lang" with
  | none => .ok none
  | some (.str s) => .ok (some s)
  | some _ => .error [invalidTypeIssue "source_lang" "string"]

/-- `TranslateTextInputSchema.parse`: requires an object payload, then
validates the three fields, collecting all issues in schema order. -/
def parseTranslateArgs (args : Option JValue) :
    Except (List ZodIssue) TranslateRequest :=
  match args with
  | none => .error [⟨"invalid_type", [], "Required"⟩]
  | some (.obj fields) =>
      match checkText fields, checkTargetLang fields, checkSourceLang fields with
      | .ok t, .ok tl, .ok sl => .ok ⟨t, tl, sl⟩
      | rt, rtl, rsl => .error (errList rt ++ errList rtl ++ errList rsl)
  | some _ => .error [⟨"invalid_type", [], "Expected object"⟩]

/-- `ListLanguagesInputSchema.parse`: requires an object payload whose
optional `type` field, when present, is the string `source` or `target`. -/
def parseListArgs (args : Option JValue) :
    Except (List ZodIssue) ListLanguagesRequest :=
  match args with
  | none => .error [⟨"invalid_type", [], "Required"⟩]
  | some (.obj fields) =>
      match jGet fields "type" with
      | none => .ok ⟨none⟩
      | some (.str s) =>
          if s = "source" then .ok ⟨some .source⟩
          else if s = "target" then .ok ⟨some .target⟩
          else .error [⟨"invalid_enum_value", [.key "type"], "Invalid enum value"⟩]
      | some _ => .error [⟨"invalid_enum_value", [.key "type"], "Invalid enum value"⟩]
  | some _ => .error [⟨"invalid_type", [], "Expected object"⟩]

/-! ## Error normalizer (`handleToolError`) -/

/-- Status-code to error-code selection of `handleToolError`, including
the JavaScript truthiness guards (`status && status >= 401 && ...`);
`none` models an `AxiosError` without an HTTP response. -/
def axiosErrorCode (status : Option Nat) : ErrorCode :=
  let ec0 := ErrorCode.InternalError
  let ec1 := if status = some 400 then ErrorCode.InvalidParams else ec0
  let ec2 := match status with
    | some s => if s ≠ 0 ∧ 401 ≤ s ∧ s < 500 ∧ s ≠ 400 then ErrorCode.InvalidRequest else ec1
    | none => ec1
  match status with
  | some s => if s ≠ 0 ∧ 500 ≤ s then ErrorCode.InternalError else ec2
  | none => ec2

/-- JavaScript template rendering of the possibly-undefined status. -/
def statusToString : Option Nat → String
  | some s => toString s
  | none => "undefined"

/-- `data?.message || axiosError.message`: the upstream body's `message`
property when it is present and truthy, otherwise the transport-level
error message. -/
def dataMessageOr (data : Option JValue) (fallback : String) : String :=
  match data with
  | none => fallback
  | some d =>
      match jGetField d "message" with
      | some v => if v.truthy then jsToString v else fallback
      | none => fallback

/-- The error-classification half of `handleToolError`: maps a caught
error to the `McpError` used to build the response. -/
def toMcpError : ThrownError → McpError
  | .mcp e => e
  | .zod issues => ⟨.InvalidParams, "Input validation failed", some (issuesToJson issues)⟩
  | .axios response msg =>
      let status := response.map AxiosResponse.status
      let data := response.map AxiosResponse.data
      ⟨axiosErrorCode status,
       "DeepL API Error (" ++ statusToString status ++ "): " ++ dataMessageOr data msg,
       data⟩
  | .other msg => ⟨.InternalError, "An unexpected error occurred: " ++ msg, none⟩

/-! ## Pretty-printed success bodies

`JSON.stringify(value, null, 2)` of the two upstream success payloads.
The serializers work on `List Char` so that the decoding proofs below can
proceed by structural recursion. -/

/-- The element indent of the top-level pretty-printed array. -/
def twoSpaces : List Char := [' ', ' ']

/-- Literal up to and including the opening quote of
`detected_source_language`'s value. -/
def itemLit1 : List Char :=
  "\x7b\n    \"detected_source_language\": \"".data

/-- Literal between the two string values of a translation object. -/
def itemLit2 : List Char := ",\n    \"text\": \"".data

/-- Literal closing a pretty-printed translation object at depth 1. -/
def itemLit3 : List Char := "\n  \x7d".data

/-- `JSON.stringify(t, null, 2)` of one translation object, rendered at
array depth 1 (4-space member indent, 2-space closing-brace indent). -/
def serializeTranslation (t : DeepLTranslation) : List Char :=
  itemLit1 ++ (escapeList t.detected_source_language.data ++
    '"' :: (itemLit2 ++ (escapeList t.text.data ++ '"' :: itemLit3)))

/-- The members of the pretty-printed translations array: each element on
its own 2-space-indented line, separated by commas. -/
def serializeItems : List DeepLTranslation → List Char
  | [] => []
  | [t] => twoSpaces ++ serializeTranslation t
  | t :: ts => twoSpaces ++ (serializeTranslation t ++ ',' :: '\n' :: serializeItems ts)

/-- `JSON.stringify(translations, null, 2)`: `[]` for the empty array,
otherwise the bracketed newline-separated member list. -/
def serializeTranslations : List DeepLTranslation → List Char
  | [] => ['[', ']']
  | t :: ts => '[' :: '\n' :: (serializeItems (t :: ts) ++ ['\n', ']'])

/-- JavaScript boolean literal. -/
def boolLit : Bool → List Char
  | true => ['t', 'r', 'u', 'e']
  | false => ['f', 'a', 'l', 's', 'e']

/-- `JSON.stringify(l, null, 2)` of one language object at depth 1. -/
def serializeLanguage (l : DeepLLanguage) : List Char :=
  "\x7b\n    \"language\": \"".data ++ escapeList l.language.data ++
    "\",\n    \"name\": \"".data ++ escapeList l.name.data ++
    "\",\n    \"supports_formality\": ".data ++ boolLit l.supports_formality ++
    "\n  \x7d".data

/-- The members of the pretty-printed languages array. -/
def serializeLanguageItems : List DeepLLanguage → List Char
  | [] => []
  | [l] => twoSpaces ++ serializeLanguage l
  | l :: ls => twoSpaces ++ (serializeLanguage l ++ ',' :: '\n' :: serializeLanguageItems ls)

/-- `JSON.stringify(languages, null, 2)`. -/
def serializeLanguages : List DeepLLanguage → List Char
  | [] => ['[', ']']
  | l :: ls => '[' :: '\n' :: (serializeLanguageItems (l :: ls) ++ ['\n', ']'])

/-! ## Tool response envelope and handlers -/

/-- A text content block of a tool response (`TextContent`);
`mimeType = none` models an absent field. -/
structure TextContent where
  type : String
  text : String
  mimeType : Option String
deriving DecidableEq, Repr

/-- The `CallToolResult` envelope returned to the caller.  Success
responses of this server leave `isError`/`errorCode` unset, modelled as
`false`/`none`. -/
structure ToolResponse where
  content : List TextContent
  isError : Bool
  errorCode : Option ErrorCode
deriving DecidableEq, Repr

/-- The upstream translate body built by `callTranslateText`: the
spread `...(validatedArgs.source_lang && { source_lang })` includes the
key only when the validated value is truthy, so an empty string is
dropped. -/
def mkTranslateBody (v : TranslateRequest) : TranslateBody :=
  { text := v.text
    target_lang := v.target_lang
    source_lang :=
      match v.source_lang with
      | some s => if s = "" then none else some s
      | none => none }

/-- `callTranslateText`: validates the arguments (a `ZodError` escapes as
a thrown error), issues the translate POST, and renders the upstream
`translations` array as one pretty-printed JSON text content block.  The
second component records the upstream requests issued. -/
def callTranslateText (args : Option JValue) (up : Upstream) :
    Except ThrownError ToolResponse × List UpstreamRequest :=
  match parseTranslateArgs args with
  | .error issues => (.error (.zod issues), [])
  | .ok v =>
      let body := mkTranslateBody v
      match up.translate body with
      | .error e => (.error e, [.postTranslate body])
      | .ok ts =>
          (.ok { content := [⟨"text", String.mk (serializeTranslations ts),
                              some "application/json"⟩],
                 isError := false, errorCode := none },
           [.postTranslate body])

/-- `callListLanguages`: validates the arguments and issues the languages
GET, forwarding `type` as a query parameter only when present (`if
(validatedArgs.type)`; both enum values are truthy strings). -/
def callListLanguages (args : Option JValue) (up : Upstream) :
    Except ThrownError ToolResponse × List UpstreamRequest :=
  match parseListArgs args with
  | .error issues => (.error (.zod issues), [])
  | .ok v =>
      match up.languages v.type with
      | .error e => (.error e, [.getLanguages v.type])
      | .ok ls =>
          (.ok { content := [⟨"text", String.mk (serializeLanguages ls),
                              some "application/json"⟩],
                 isError := false, errorCode := none },
           [.getLanguages v.type])

/-- The body of the `CallTool` request handler before its catch block:
dispatch by exact tool name, unknown names raising `MethodNotFound`. -/
def callToolRaw (name : String) (args : Option JValue) (up : Upstream) :
    Except ThrownError ToolResponse × List UpstreamRequest :=
  if name = "translate_text" then callTranslateText args up
  else if name = "list_languages" then callListLanguages args up
  else (.error (.mcp ⟨.MethodNotFound, "Tool \'" ++ name ++ "\' not found.", none⟩), [])

/-- The response-formatting half of `handleToolError`: one text content
block `Error: <message>`, with a `Details:` line appended when the error
data is truthy, flagged `isError` and carrying the error code. -/
def formatErrorResponse (m : McpError) : ToolResponse :=
  { content := [⟨"text",
      "Error: " ++ m.message ++
        (match m.data with
         | some d => if d.truthy then "\nDetails: " ++ jserialize d else ""
         | none => ""),
      none⟩],
    isError := true,
    errorCode := some m.code }

/-- `handleToolError`: classify the caught error, then format it. -/
def handleToolError (e : ThrownError) : ToolResponse :=
  formatErrorResponse (toMcpError e)

/-- The full `CallTool` request handler: dispatch, catching every thrown
error into a normalized error response. -/
def callTool (name : String) (args : Option JValue) (up : Upstream) :
    ToolResponse × List UpstreamRequest :=
  match callToolRaw name args up with
  | (.ok r, reqs) => (r, reqs)
  | (.error e, reqs) => (handleToolError e, reqs)

/-! ## Decoding the translate content block

A decoder for the pretty-printed translations JSON produced by
`serializeTranslations`, used to state the round-trip property of the
spec: parsing the content block back yields the upstream sequence. -/

/-- Consume an expected literal prefix. -/
def parseExact : List Char → List Char → Option (List Char)
  | [], input => some input
  | _ :: _, [] => none
  | p :: ps, c :: cs => if c = p then parseExact ps cs else none

/-- Hexadecimal digit value. -/
def hexVal (c : Char) : Option Nat :=
  if 48 ≤ c.toNat ∧ c.toNat ≤ 57 then some (c.toNat - 48)
  else if 97 ≤ c.toNat ∧ c.toNat ≤ 102 then some (c.toNat - 87)
  else if 65 ≤ c.toNat ∧ c.toNat ≤ 70 then some (c.toNat - 55)
  else none

/-- Unescape a single-character JSON escape. -/
def unescapeSimple (e : Char) : Option Char :=
  if e = '"' then some '"'
  else if e = '\\' then some '\\'
  else if e = '/' then some '/'
  else if e = 'b' then some '\x08'
  else if e = 'f' then some '\x0c'
  else if e = 'n' then some '\n'
  else if e = 'r' then some '\r'
  else if e = 't' then some '\t'
  else none

/-- Parse four hexadecimal digits into their value. -/
def parseHex4 : List Char → Option (Nat × List Char)
  | h1 :: h2 :: h3 :: h4 :: rest =>
    match hexVal h1, hexVal h2, hexVal h3, hexVal h4 with
    | some a, some b, some c, some d => some (4096 * a + 256 * b + 16 * c + d, rest)
    | _, _, _, _ => none
  | _ => none

/-- Parse one JSON escape sequence (the characters after a backslash). -/
def parseEscape : List Char → Option (Char × List Char)
  | [] => none
  | e :: rest =>
    if e = 'u' then
      match parseHex4 rest with
      | some (n, rest2) => some (Char.ofNat n, rest2)
      | none => none
    else
      match unescapeSimple e with
      | some u => some (u, rest)
      | none => none

/-- Parse the body of a JSON string literal up to and including its
closing quote, undoing the escapes; returns the decoded characters and
the remaining input.  The fuel argument bounds the number of decoded
characters. -/
def parseStringBody : Nat → List Char → Option (List Char × List Char)
  | 0, _ => none
  | _, [] => none
  | fuel + 1, c :: cs =>
    if c = '"' then some ([], cs)
    else if c = '\\' then
      match parseEscape cs with
      | some (u, rest) =>
        match parseStringBody fuel rest with
        | some (s, r) => some (u :: s, r)
        | none => none
      | none => none
    else
      match parseStringBody fuel cs with
      | some (s, r) => some (c :: s, r)
      | none => none

/-- Parse one pretty-printed translation object at array depth 1. -/
def parseItem (input : List Char) : Option (DeepLTranslation × List Char) :=
  match parseExact itemLit1 input with
  | none => none
  | some i1 =>
    match parseStringBody (i1.length + 1) i1 with
    | none => none
    | some (s1, i2) =>
      match parseExact itemLit2 i2 with
      | none => none
      | some i3 =>
        match parseStringBody (i3.length + 1) i3 with
        | none => none
        | some (s2, i4) =>
          match parseExact itemLit3 i4 with
          | none => none
          | some i5 => some (⟨String.mk s1, String.mk s2⟩, i5)

/-- Parse the comma-separated members of the pretty-printed array; the
fuel argument bounds the number of members. -/
def parseItems : Nat → List Char → Option (List DeepLTranslation × List Char)
  | 0, _ => none
  | fuel + 1, input =>
    match parseExact twoSpaces input with
    | none => none
    | some input2 =>
      match parseItem input2 with
      | none => none
      | some (t, rest) =>
        match rest with
        | c1 :: c2 :: rest2 =>
          if c1 = ',' ∧ c2 = '\n' then
            match parseItems fuel rest2 with
            | none => none
            | some (ts, rest3) => some (t :: ts, rest3)
          else some ([t], rest)
        | _ => some ([t], rest)

/-- Parse a full pretty-printed translations document. -/
def decodeTranslations (s : List Char) : Option (List DeepLTranslation) :=
  if s = ['[', ']'] then some []
  else
    match parseExact ['[', '\n'] s with
    | none => none
    | some rest =>
      match parseItems (rest.length + 1) rest with
      | none => none
      | some (ts, rest2) => if rest2 = ['\n', ']'] then some ts else none

/-! ## Spec-side definitions

Definitions following the specification's words, used to state the
claims against the embedded code. -/

/-- The TranslateRequest field shape of the spec, on an object payload:
`text` a non-empty array of strings, `target_lang` a string,
`source_lang` absent or a string. -/
def validTranslateFields (fields : List (String × JValue)) : Bool :=
  (match jGet fields "text" with
   | some (.arr elems) => elems.all (fun e => match e with | .str _ => true | _ => false)
       && !elems.isEmpty
   | _ => false)
  && (match jGet fields "target_lang" with
      | some (.str _) => true
      | _ => false)
  && (match jGet fields "source_lang" with
      | none => true
      | some (.str _) => true
      | _ => false)

/-- The TranslateRequest shape of the spec: an object payload whose
fields satisfy `validTranslateFields`. -/
def validTranslateShape (args : Option JValue) : Bool :=
  match args with
  | some (.obj fields) => validTranslateFields fields
  | _ => false

/-- The `source_lang` value the code actually sends upstream, as a
function of the raw argument object: the provided string when it is
non-empty, nothing otherwise. -/
def sentSourceLang (fields : List (String × JValue)) : Option String :=
  match jGet fields "source_lang" with
  | some (.str s) => if s = "" then none else some s
  | _ => none

/-- Modelled from the spec: the message annotation rule of §4.4 — "the
upstream-provided message (falling back to the transport-level error
message if the upstream body has none)" — reading "has none" as absence
of a `message` property. -/
def specUpstreamMessage (data : JValue) (fallback : String) : String :=
  match jGetField data "message" with
  | some v => jsToString v
  | none => fallback

/-! ## Round-trip lemmas for the translate content block -/

theorem hexVal_hexDigitChar : ∀ n, n < 16 → hexVal (hexDigitChar n) = some n := by
  decide

theorem hexVal_zero : hexVal '0' = some 0 := by decide

theorem parseExact_append (p r : List Char) : parseExact p (p ++ r) = some r := by
  induction p with
  | nil => rfl
  | cons c cs ih => simpa [parseExact] using ih

theorem escapeChar_length_pos (c : Char) : 1 ≤ (escapeChar c).length := by
  unfold escapeChar
  split_ifs <;> simp

theorem length_le_escapeList (s : List Char) : s.length ≤ (escapeList s).length := by
  induction s with
  | nil => simp [escapeList]
  | cons c cs ih =>
    have := escapeChar_length_pos c
    simp only [escapeList, List.length_append, List.length_cons]
    omega

theorem parseStringBody_escape (s : List Char) : ∀ (fuel : Nat) (r : List Char),
    s.length < fuel →
    parseStringBody fuel (escapeList s ++ '"' :: r) = some (s, r) := by
  induction s with
  | nil =>
    intro fuel r hlt
    cases fuel with
    | zero => omega
    | succ f => simp [escapeList, parseStringBody]
  | cons c cs ih =>
    intro fuel r hlt
    cases fuel with
    | zero => simp at hlt
    | succ f =>
      have ihh := ih f r (by simp at hlt; omega)
      rw [escapeList, List.append_assoc]
      by_cases h1 : c = '"'
      · subst h1
        simp [escapeChar, parseStringBody, parseEscape, unescapeSimple, ihh]
      · by_cases h2 : c = '\\'
        · subst h2
          simp [escapeChar, parseStringBody, parseEscape, unescapeSimple, ihh]
        · by_cases h3 : c = '\x08'
          · subst h3
            simp [escapeChar, parseStringBody, parseEscape, unescapeSimple, ihh]
          · by_cases h4 : c = '\x0c'
            · subst h4
              simp [escapeChar, parseStringBody, parseEscape, unescapeSimple, ihh]
            · by_cases h5 : c = '\n'
              · subst h5
                simp [escapeChar, parseStringBody, parseEscape, unescapeSimple, ihh]
              · by_cases h6 : c = '\r'
                · subst h6
                  simp [escapeChar, parseStringBody, parseEscape, unescapeSimple, ihh]
                · by_cases h7 : c = '\t'
                  · subst h7
                    simp [escapeChar, parseStringBody, parseEscape, unescapeSimple, ihh]
                  · by_cases h8 : c.toNat < 32
                    · have hq : c.toNat / 16 < 16 := by omega
                      have hr : c.toNat % 16 < 16 := Nat.mod_lt _ (by norm_num)
                      unfold escapeChar
                      rw [if_neg h1, if_neg h2, if_neg h3, if_neg h4, if_neg h5,
                          if_neg h6, if_neg h7, if_pos h8]
                      simp [parseStringBody, parseEscape, parseHex4, hexVal_zero,
                        hexVal_hexDigitChar _ hq, hexVal_hexDigitChar _ hr, ihh,
                        Nat.div_add_mod]
                    · unfold escapeChar
                      rw [if_neg h1, if_neg h2, if_neg h3, if_neg h4, if_neg h5,
                          if_neg h6, if_neg h7, if_neg h8]
                      simp [parseStringBody, h1, h2, ihh]

theorem parseItem_append (t : DeepLTranslation) (r : List Char) :
    parseItem (serializeTranslation t ++ r) = some (t, r) := by
  have h1 := length_le_escapeList t.detected_source_language.data
  have h2 := length_le_escapeList t.text.data
  unfold parseItem serializeTranslation
  simp only [List.append_assoc, List.cons_append]
  rw [parseExact_append]
  simp only []
  rw [parseStringBody_escape _ _ _ (by simp only [List.length_append, List.length_cons]; omega)]
  simp only []
  rw [parseExact_append]
  simp only []
  rw [parseStringBody_escape _ _ _ (by simp only [List.length_append, List.length_cons]; omega)]
  simp only []
  rw [parseExact_append]

theorem length_le_serializeItems (ts : List DeepLTranslation) :
    ts.length ≤ (serializeItems ts).length := by
  induction ts with
  | nil => simp [serializeItems]
  | cons t ts ih =>
    cases ts with
    | nil => simp [serializeItems, twoSpaces]
    | cons t2 ts2 =>
      simp only [serializeItems, twoSpaces, List.length_append, List.length_cons,
        List.length_nil] at ih ⊢
      omega

theorem parseItems_rt (ts : List DeepLTranslation) : ∀ fuel : Nat,
    ts ≠ [] → ts.length ≤ fuel →
    parseItems fuel (serializeItems ts ++ ['\n', ']']) = some (ts, ['\n', ']']) := by
  induction ts with
  | nil => intro fuel h; exact absurd rfl h
  | cons t ts ih =>
    intro fuel _ hlen
    cases fuel with
    | zero => simp at hlen
    | succ f =>
      cases ts with
      | nil =>
        rw [serializeItems, parseItems]
        simp only [twoSpaces, List.append_assoc, List.cons_append, List.nil_append]
        rw [show parseExact [' ', ' '] (' ' :: ' ' :: (serializeTranslation t ++ ['\n', ']']))
              = some (serializeTranslation t ++ ['\n', ']']) by simp [parseExact]]
        simp only [parseItem_append]
        simp
      | cons t2 ts2 =>
        rw [show serializeItems (t :: t2 :: ts2)
              = twoSpaces ++ (serializeTranslation t ++
                  ',' :: '\n' :: serializeItems (t2 :: ts2)) from rfl,
            parseItems]
        simp only [twoSpaces, List.append_assoc, List.cons_append, List.nil_append]
        rw [show parseExact [' ', ' ']
              (' ' :: ' ' :: (serializeTranslation t ++
                ',' :: '\n' :: (serializeItems (t2 :: ts2) ++ ['\n', ']'])))
              = some (serializeTranslation t ++
                ',' :: '\n' :: (serializeItems (t2 :: ts2) ++ ['\n', ']'])) by
            simp [parseExact]]
        simp only [parseItem_append]
        rw [ih f (List.cons_ne_nil _ _) (by simp at hlen ⊢; omega)]
        simp

theorem decodeTranslations_serialize (ts : List DeepLTranslation) :
    decodeTranslations (serializeTranslations ts) = some ts := by
  cases ts with
  | nil => rfl
  | cons t ts' =>
    have hl := length_le_serializeItems (t :: ts')
    rw [serializeTranslations, decodeTranslations]
    rw [if_neg (by simp)]
    rw [show parseExact ['[', '\n']
          ('[' :: '\n' :: (serializeItems (t :: ts') ++ ['\n', ']']))
          = some (serializeItems (t :: ts') ++ ['\n', ']']) by simp [parseExact]]
    simp only []
    rw [parseItems_rt (t :: ts') _ (List.cons_ne_nil _ _)
      (by simp only [List.length_append, List.length_cons, List.length_nil] at hl ⊢; omega)]
    simp

/-! ## Soundness and completeness of the zod validators -/

theorem asStrings_ok : ∀ (elems : List JValue) (i : Nat) (ss : List String),
    asStrings elems i = Except.ok ss → elems = ss.map JValue.str := by
  intro elems
  induction elems with
  | nil =>
    intro i ss h
    simp only [asStrings] at h
    cases h
    rfl
  | cons e rest ih =>
    intro i ss h
    simp only [asStrings] at h
    cases he : asString1 e with
    | none =>
      rw [he] at h
      cases hr : asStrings rest (i + 1) with
      | ok ss' => rw [hr] at h; cases h
      | error es => rw [hr] at h; cases h
    | some s =>
      rw [he] at h
      cases hr : asStrings rest (i + 1) with
      | ok ss' =>
        rw [hr] at h
        cases h
        have he2 : e = JValue.str s := by
          cases e <;> simp [asString1] at he
          rw [he]
        rw [he2, ih (i + 1) ss' hr]
        rfl
      | error es => rw [hr] at h; cases h

theorem asStrings_map (ss : List String) : ∀ i : Nat,
    asStrings (ss.map JValue.str) i = Except.ok ss := by
  induction ss with
  | nil => intro i; rfl
  | cons s rest ih =>
    intro i
    simp only [List.map_cons, asStrings, asString1, ih (i + 1)]

theorem checkText_ok (fields : List (String × JValue)) (ss : List String)
    (h : checkText fields = Except.ok ss) :
    jGet fields "text" = some (JValue.arr (ss.map JValue.str)) ∧ ss ≠ [] := by
  unfold checkText at h
  split at h
  next => cases h
  next elems heq =>
    split at h
    next ss' hr =>
      split at h
      next => cases h
      next hl =>
        cases h
        refine ⟨by rw [heq, asStrings_ok elems 0 ss hr], ?_⟩
        intro hnil
        rw [hnil] at hl
        simp at hl
    next es hr => cases h
  next v hne heq => cases h

theorem checkText_complete (fields : List (String × JValue)) (ss : List String)
    (hj : jGet fields "text" = some (JValue.arr (ss.map JValue.str)))
    (hne : ss ≠ []) :
    checkText fields = Except.ok ss := by
  unfold checkText
  rw [hj]
  simp only [asStrings_map ss 0]
  rw [if_neg (by cases ss with | nil => exact absurd rfl hne | cons a l => simp)]

theorem checkTargetLang_ok (fields : List (String × JValue)) (tl : String)
    (h : checkTargetLang fields = Except.ok tl) :
    jGet fields "target_lang" = some (JValue.str tl) := by
  unfold checkTargetLang at h
  cases hj : jGet fields "target_lang" with
  | none => rw [hj] at h; cases h
  | some v =>
    rw [hj] at h
    cases v with
    | str s => cases h; rfl
    | null => cases h
    | bool b => cases h
    | num n => cases h
    | arr elems => cases h
    | obj fs => cases h

theorem checkSourceLang_ok (fields : List (String × JValue)) (sl : Option String)
    (h : checkSourceLang fields = Except.ok sl) :
    (jGet fields "source_lang" = none ∧ sl = none) ∨
      (∃ s, jGet fields "source_lang" = some (JValue.str s) ∧ sl = some s) := by
  unfold checkSourceLang at h
  cases hj : jGet fields "source_lang" with
  | none => rw [hj] at h; cases h; exact Or.inl ⟨rfl, rfl⟩
  | some v =>
    rw [hj] at h
    cases v with
    | str s => cases h; exact Or.inr ⟨s, rfl, rfl⟩
    | null => cases h
    | bool b => cases h
    | num n => cases h
    | arr elems => cases h
    | obj fs => cases h

theorem parseTranslateArgs_ok (args : Option JValue) (v : TranslateRequest)
    (h : parseTranslateArgs args = Except.ok v) :
    ∃ fields, args = some (JValue.obj fields) ∧
      checkText fields = Except.ok v.text ∧
      checkTargetLang fields = Except.ok v.target_lang ∧
      checkSourceLang fields = Except.ok v.source_lang := by
  cases args with
  | none => cases h
  | some jv =>
    cases jv with
    | obj fields =>
      refine ⟨fields, rfl, ?_⟩
      simp only [parseTranslateArgs] at h
      cases h1 : checkText fields with
      | error es => rw [h1] at h; cases h2 : checkTargetLang fields <;>
          rw [h2] at h <;> cases h3 : checkSourceLang fields <;> rw [h3] at h <;> cases h
      | ok t =>
        rw [h1] at h
        cases h2 : checkTargetLang fields with
        | error es => rw [h2] at h; cases h3 : checkSourceLang fields <;>
            rw [h3] at h <;> cases h
        | ok tl =>
          rw [h2] at h
          cases h3 : checkSourceLang fields with
          | error es => rw [h3] at h; cases h
          | ok sl =>
            rw [h3] at h
            cases h
            exact ⟨rfl, rfl, rfl⟩
    | null => cases h
    | bool b => cases h
    | num n => cases h
    | str s => cases h
    | arr elems => cases h

theorem parseTranslateArgs_complete (fields : List (String × JValue))
    (ss : List String) (tl : String) (sl : Option String)
    (h1 : checkText fields = Except.ok ss)
    (h2 : checkTargetLang fields = Except.ok tl)
    (h3 : checkSourceLang fields = Except.ok sl) :
    parseTranslateArgs (some (JValue.obj fields)) = Except.ok ⟨ss, tl, sl⟩ := by
  simp only [parseTranslateArgs, h1, h2, h3]

theorem all_str_map (ss : List String) :
    (ss.map JValue.str).all
      (fun e => match e with | JValue.str _ => true | _ => false) = true := by
  induction ss with
  | nil => rfl
  | cons s rest ih => simp [ih]

theorem parseTranslateArgs_ok_valid (args : Option JValue) (v : TranslateRequest)
    (h : parseTranslateArgs args = Except.ok v) :
    validTranslateShape args = true := by
  obtain ⟨fields, rfl, h1, h2, h3⟩ := parseTranslateArgs_ok args v h
  obtain ⟨hj1, hne⟩ := checkText_ok fields v.text h1
  have hj2 := checkTargetLang_ok fields v.target_lang h2
  have hj3 := checkSourceLang_ok fields v.source_lang h3
  show validTranslateFields fields = true
  have htext : (v.text.map JValue.str).isEmpty = false := by
    cases hv : v.text with
    | nil => exact absurd hv hne
    | cons a l => simp
  rcases hj3 with ⟨hj3, _⟩ | ⟨s, hj3, _⟩ <;>
    simp [validTranslateFields, hj1, hj2, hj3, all_str_map, htext]

theorem checkTargetLang_complete (fields : List (String × JValue)) (tl : String)
    (hj : jGet fields "target_lang" = some (JValue.str tl)) :
    checkTargetLang fields = Except.ok tl := by
  unfold checkTargetLang
  rw [hj]

theorem checkSourceLang_complete_none (fields : List (String × JValue))
    (hj : jGet fields "source_lang" = none) :
    checkSourceLang fields = Except.ok none := by
  unfold checkSourceLang
  rw [hj]

theorem checkSourceLang_complete_str (fields : List (String × JValue)) (s : String)
    (hj : jGet fields "source_lang" = some (JValue.str s)) :
    checkSourceLang fields = Except.ok (some s) := by
  unfold checkSourceLang
  rw [hj]

theorem parseListArgs_ok (args : Option JValue) (v : ListLanguagesRequest)
    (h : parseListArgs args = Except.ok v) :
    ∃ fields, args = some (JValue.obj fields) ∧
      ((jGet fields "type" = none ∧ v.type = none) ∨
       (jGet fields "type" = some (JValue.str "source") ∧ v.type = some LangType.source) ∨
       (jGet fields "type" = some (JValue.str "target") ∧ v.type = some LangType.target)) := by
  cases args with
  | none => cases h
  | some jv =>
    cases jv with
    | obj fields =>
      refine ⟨fields, rfl, ?_⟩
      simp only [parseListArgs] at h
      split at h
      next heq => cases h; exact Or.inl ⟨heq, rfl⟩
      next s heq =>
        split at h
        next hs => cases h; subst hs; exact Or.inr (Or.inl ⟨heq, rfl⟩)
        next hs =>
          split at h
          next ht => cases h; subst ht; exact Or.inr (Or.inr ⟨heq, rfl⟩)
          next ht => cases h
      next v2 hns heq => cases h
    | null => cases h
    | bool b => cases h
    | num n => cases h
    | str s => cases h
    | arr elems => cases h

/-! ## Computation lemmas for the dispatcher and handlers -/

theorem callToolRaw_translate (args : Option JValue) (up : Upstream) :
    callToolRaw "translate_text" args up = callTranslateText args up := rfl

theorem callToolRaw_list (args : Option JValue) (up : Upstream) :
    callToolRaw "list_languages" args up = callListLanguages args up := rfl

theorem callTranslateText_error (args : Option JValue) (issues : List ZodIssue)
    (up : Upstream) (h : parseTranslateArgs args = Except.error issues) :
    callTranslateText args up = (Except.error (ThrownError.zod issues), []) := by
  unfold callTranslateText
  rw [h]

theorem callTranslateText_requests (args : Option JValue) (v : TranslateRequest)
    (up : Upstream) (h : parseTranslateArgs args = Except.ok v) :
    (callTranslateText args up).2 = [UpstreamRequest.postTranslate (mkTranslateBody v)] := by
  unfold callTranslateText
  simp only [h]
  split <;> rfl

theorem callListLanguages_error (args : Option JValue) (issues : List ZodIssue)
    (up : Upstream) (h : parseListArgs args = Except.error issues) :
    callListLanguages args up = (Except.error (ThrownError.zod issues), []) := by
  unfold callListLanguages
  rw [h]

theorem callListLanguages_requests (args : Option JValue) (v : ListLanguagesRequest)
    (up : Upstream) (h : parseListArgs args = Except.ok v) :
    (callListLanguages args up).2 = [UpstreamRequest.getLanguages v.type] := by
  unfold callListLanguages
  simp only [h]
  split <;> rfl

theorem callTool_eq_raw (name : String) (args : Option JValue) (up : Upstream) :
    callTool name args up =
      (match (callToolRaw name args up).1 with
       | .ok r => r
       | .error e => handleToolError e,
       (callToolRaw name args up).2) := by
  unfold callTool
  rcases hr : callToolRaw name args up with ⟨res, reqs⟩
  cases res <;> rfl

theorem handleToolError_isError (e : ThrownError) :
    (handleToolError e).isError = true := rfl

/-- JavaScript truthiness of the optional `data` field of an `McpError`
(`undefined` is falsy). -/
def dataTruthy : Option JValue → Bool
  | none => false
  | some d => d.truthy

/-- `JSON.stringify` of the optional `data` field, for truthy data. -/
def jserializeOpt : Option JValue → String
  | none => "undefined"
  | some d => jserialize d

/-! ## Claims -/

set_option maxRecDepth 10000

/-- C1 (counterexample): a caller-provided empty-string `source_lang`
passes validation — so the claim's "provided, therefore included" reading
applies — but the handler's truthiness spread drops it, and the issued
POST body carries no `source_lang`. -/
theorem translate_provided_empty_source_lang_dropped :
    validTranslateShape (some (JValue.obj
      [("text", JValue.arr [JValue.str "Hello"]), ("target_lang", JValue.str "DE"),
       ("source_lang", JValue.str "")])) = true ∧
    jGet [("text", JValue.arr [JValue.str "Hello"]), ("target_lang", JValue.str "DE"),
       ("source_lang", JValue.str "")] "source_lang" = some (JValue.str "") ∧
    (callTool "translate_text" (some (JValue.obj
      [("text", JValue.arr [JValue.str "Hello"]), ("target_lang", JValue.str "DE"),
       ("source_lang", JValue.str "")]))
      ⟨fun _ => Except.ok [], fun _ => Except.ok []⟩).2 =
      [UpstreamRequest.postTranslate ⟨["Hello"], "DE", none⟩] :=
  ⟨rfl, rfl, rfl⟩

/-- C1 (amended): for every argument object of the valid TranslateRequest
shape, the translate handler issues exactly one upstream POST whose body
carries the given `text` and `target_lang`, and carries `source_lang`
exactly when the caller provided it as a non-empty string (an omitted or
empty string signals auto-detect; a null or non-string value is rejected
by validation). -/
theorem translate_posts_body_with_truthy_source_lang
    (fields : List (String × JValue)) (ss : List String) (tl : String) (up : Upstream)
    (ht : jGet fields "text" = some (JValue.arr (ss.map JValue.str)))
    (hne : ss ≠ [])
    (htl : jGet fields "target_lang" = some (JValue.str tl))
    (hsl : jGet fields "source_lang" = none ∨
           ∃ s, jGet fields "source_lang" = some (JValue.str s)) :
    (callTool "translate_text" (some (JValue.obj fields)) up).2 =
      [UpstreamRequest.postTranslate ⟨ss, tl, sentSourceLang fields⟩] := by
  have hct := checkText_complete fields ss ht hne
  have hctl := checkTargetLang_complete fields tl htl
  have h2 : (callTool "translate_text" (some (JValue.obj fields)) up).2
      = (callTranslateText (some (JValue.obj fields)) up).2 := by
    rw [callTool_eq_raw, callToolRaw_translate]
  rw [h2]
  rcases hsl with hj | ⟨s, hj⟩
  · have hp := parseTranslateArgs_complete fields ss tl none hct hctl
      (checkSourceLang_complete_none fields hj)
    rw [callTranslateText_requests _ _ up hp]
    simp [mkTranslateBody, sentSourceLang, hj]
  · have hp := parseTranslateArgs_complete fields ss tl (some s) hct hctl
      (checkSourceLang_complete_str fields s hj)
    rw [callTranslateText_requests _ _ up hp]
    simp [mkTranslateBody, sentSourceLang, hj]

/-- C1 (witness): the amended claim at the spec's example arguments plus
`source_lang: "EN"`. -/
theorem translate_posts_body_with_truthy_source_lang_witness :
    (callTool "translate_text" (some (JValue.obj
        [("text", JValue.arr [JValue.str "Hello world", JValue.str "How are you?"]),
         ("target_lang", JValue.str "DE"), ("source_lang", JValue.str "EN")]))
      ⟨fun _ => Except.ok [], fun _ => Except.ok []⟩).2 =
      [UpstreamRequest.postTranslate ⟨["Hello world", "How are you?"], "DE",
        sentSourceLang
          [("text", JValue.arr [JValue.str "Hello world", JValue.str "How are you?"]),
           ("target_lang", JValue.str "DE"), ("source_lang", JValue.str "EN")]⟩] :=
  translate_posts_body_with_truthy_source_lang _ ["Hello world", "How are you?"] "DE" _
    rfl (by simp) rfl (Or.inr ⟨"EN", rfl⟩)

/-- C2: every argument payload failing the TranslateRequest shape — `text`
missing, not an array of strings, or empty; `target_lang` missing or not
a string; `source_lang` present but not a string — is answered with an
`InvalidParams` error response, and no upstream request is issued. -/
theorem translate_invalid_shape_rejected (args : Option JValue) (up : Upstream)
    (h : validTranslateShape args = false) :
    (callTool "translate_text" args up).1.isError = true ∧
    (callTool "translate_text" args up).1.errorCode = some ErrorCode.InvalidParams ∧
    (callTool "translate_text" args up).2 = [] := by
  cases hp : parseTranslateArgs args with
  | ok v =>
    have hv := parseTranslateArgs_ok_valid args v hp
    rw [hv] at h
    cases h
  | error issues =>
    have hc : callToolRaw "translate_text" args up
        = (Except.error (ThrownError.zod issues), []) := by
      rw [callToolRaw_translate]
      exact callTranslateText_error args issues up hp
    rw [callTool_eq_raw, hc]
    exact ⟨rfl, rfl, rfl⟩

/-- C2 (witness): the empty-object payload (both required fields missing)
is rejected with `InvalidParams` and no upstream request. -/
theorem translate_invalid_shape_rejected_witness :
    (callTool "translate_text" (some (JValue.obj []))
      ⟨fun _ => Except.ok [], fun _ => Except.ok []⟩).1.isError = true ∧
    (callTool "translate_text" (some (JValue.obj []))
      ⟨fun _ => Except.ok [], fun _ => Except.ok []⟩).1.errorCode
      = some ErrorCode.InvalidParams ∧
    (callTool "translate_text" (some (JValue.obj []))
      ⟨fun _ => Except.ok [], fun _ => Except.ok []⟩).2 = [] :=
  translate_invalid_shape_rejected (some (JValue.obj [])) _ rfl

/-- C3 (counterexample): an upstream 403 whose body carries the message
`""` — a message the body has, which the claim says should be used — is
annotated with the transport-level message instead, because the code's
`data?.message || axiosError.message` falls back on any falsy message. -/
theorem axios_falsy_message_fallback_counterexample :
    jGetField (JValue.obj [("message", JValue.str "")]) "message"
      = some (JValue.str "") ∧
    (toMcpError (ThrownError.axios
        (some ⟨403, JValue.obj [("message", JValue.str "")]⟩)
        "Request failed with status code 403")).message
      = "DeepL API Error (403): Request failed with status code 403" ∧
    (toMcpError (ThrownError.axios
        (some ⟨403, JValue.obj [("message", JValue.str "")]⟩)
        "Request failed with status code 403")).message
      ≠ "DeepL API Error (403): " ++
          specUpstreamMessage (JValue.obj [("message", JValue.str "")])
            "Request failed with status code 403" := by
  refine ⟨rfl, rfl, ?_⟩
  have hs : specUpstreamMessage (JValue.obj [("message", JValue.str "")])
      "Request failed with status code 403" = "" := by
    simp [specUpstreamMessage, jGetField, jGet, jsToString]
  rw [hs]
  decide

/-- C3 (amended): for every upstream HTTP failure carrying a status code
(all failing statuses are at least 400), the error code is selected
solely by status — 400 to `InvalidParams`, 401–499 to `InvalidRequest`,
at least 500 to `InternalError` — and the error is annotated with the
status, the upstream body's truthy `message` (falling back to the
transport-level message when the body has no message or a falsy one),
and the raw upstream body as details. -/
theorem axios_status_code_mapping (s : Nat) (data : JValue) (msg : String)
    (h : 400 ≤ s) :
    (toMcpError (ThrownError.axios (some ⟨s, data⟩) msg)).code
      = (if s = 400 then ErrorCode.InvalidParams
         else if s < 500 then ErrorCode.InvalidRequest
         else ErrorCode.InternalError) ∧
    (toMcpError (ThrownError.axios (some ⟨s, data⟩) msg)).message
      = "DeepL API Error (" ++ toString s ++ "): " ++ dataMessageOr (some data) msg ∧
    (toMcpError (ThrownError.axios (some ⟨s, data⟩) msg)).data = some data ∧
    (jGetField data "message" = none → dataMessageOr (some data) msg = msg) ∧
    (∀ v, jGetField data "message" = some v → v.truthy = true →
        dataMessageOr (some data) msg = jsToString v) ∧
    (∀ v, jGetField data "message" = some v → v.truthy = false →
        dataMessageOr (some data) msg = msg) := by
  refine ⟨?_, rfl, rfl, ?_, ?_, ?_⟩
  · show axiosErrorCode (some s) = _
    by_cases h1 : s = 400
    · subst h1
      decide
    · have hA : ¬ (some s = some (400 : Nat)) := by simp [h1]
      by_cases h2 : s < 500
      · have hB : s ≠ 0 ∧ 401 ≤ s ∧ s < 500 ∧ s ≠ 400 := by omega
        have hC : ¬ (s ≠ 0 ∧ 500 ≤ s) := by omega
        rw [if_neg h1, if_pos h2]
        simp only [axiosErrorCode]
        rw [if_neg hA, if_pos hB, if_neg hC]
      · have hB : ¬ (s ≠ 0 ∧ 401 ≤ s ∧ s < 500 ∧ s ≠ 400) := by omega
        have hC : s ≠ 0 ∧ 500 ≤ s := by omega
        rw [if_neg h1, if_neg h2]
        simp only [axiosErrorCode]
        rw [if_neg hA, if_neg hB, if_pos hC]
  · intro hm
    simp [dataMessageOr, hm]
  · intro v hm ht
    simp [dataMessageOr, hm, ht]
  · intro v hm ht
    simp [dataMessageOr, hm, ht]

/-- C3 (witness): status 403 with a truthy body message maps to
`InvalidRequest`, annotated with the body's message and the raw body. -/
theorem axios_status_code_mapping_witness :
    (toMcpError (ThrownError.axios
        (some ⟨403, JValue.obj [("message", JValue.str "Forbidden")]⟩) "m")).code
      = (if (403 : Nat) = 400 then ErrorCode.InvalidParams
         else if (403 : Nat) < 500 then ErrorCode.InvalidRequest
         else ErrorCode.InternalError) ∧
    (toMcpError (ThrownError.axios
        (some ⟨403, JValue.obj [("message", JValue.str "Forbidden")]⟩) "m")).message
      = "DeepL API Error (" ++ toString (403 : Nat) ++ "): " ++
          dataMessageOr (some (JValue.obj [("message", JValue.str "Forbidden")])) "m" ∧
    (toMcpError (ThrownError.axios
        (some ⟨403, JValue.obj [("message", JValue.str "Forbidden")]⟩) "m")).data
      = some (JValue.obj [("message", JValue.str "Forbidden")]) ∧
    dataMessageOr (some (JValue.obj [("message", JValue.str "Forbidden")])) "m"
      = jsToString (JValue.str "Forbidden") :=
  have ha := axios_status_code_mapping 403
    (JValue.obj [("message", JValue.str "Forbidden")]) "m" (by omega)
  ⟨ha.1, ha.2.1, ha.2.2.1, ha.2.2.2.2.1 (JValue.str "Forbidden") rfl rfl⟩

/-- C4: every tool name other than the two registered ones yields a
normalized `MethodNotFound` error response — the thrown protocol-level
error formatted unchanged — with no upstream request, and the dispatcher
returns it instead of propagating the error. -/
theorem unknown_tool_method_not_found (name : String) (args : Option JValue)
    (up : Upstream) (h1 : name ≠ "translate_text") (h2 : name ≠ "list_languages") :
    (callTool name args up).1.errorCode = some ErrorCode.MethodNotFound ∧
    (callTool name args up).1.isError = true ∧
    (callTool name args up).2 = [] ∧
    (callTool name args up).1 = formatErrorResponse
      ⟨ErrorCode.MethodNotFound, "Tool \'" ++ name ++ "\' not found.", none⟩ := by
  have hraw : callToolRaw name args up =
      (Except.error (ThrownError.mcp ⟨ErrorCode.MethodNotFound,
        "Tool \'" ++ name ++ "\' not found.", none⟩), []) := by
    unfold callToolRaw
    rw [if_neg h1, if_neg h2]
  rw [callTool_eq_raw, hraw]
  exact ⟨rfl, rfl, rfl, rfl⟩

/-- C4 (witness): calling the unregistered tool `mystery_tool`. -/
theorem unknown_tool_method_not_found_witness :
    (callTool "mystery_tool" none
      ⟨fun _ => Except.ok [], fun _ => Except.ok []⟩).1.errorCode
      = some ErrorCode.MethodNotFound ∧
    (callTool "mystery_tool" none
      ⟨fun _ => Except.ok [], fun _ => Except.ok []⟩).1.isError = true ∧
    (callTool "mystery_tool" none
      ⟨fun _ => Except.ok [], fun _ => Except.ok []⟩).2 = [] ∧
    (callTool "mystery_tool" none
      ⟨fun _ => Except.ok [], fun _ => Except.ok []⟩).1 = formatErrorResponse
      ⟨ErrorCode.MethodNotFound, "Tool \'" ++ "mystery_tool" ++ "\' not found.", none⟩ :=
  unknown_tool_method_not_found "mystery_tool" none _ (by decide) (by decide)

/-- C5: every error raised during dispatch — validation failure, upstream
failure, or any other local fault — is caught at the dispatcher boundary
and converted into a `ToolResponse` with `isError = true`; the
dispatcher returns that response rather than the raw error. -/
theorem dispatcher_catches_all_errors (name : String) (args : Option JValue)
    (up : Upstream) (e : ThrownError) (reqs : List UpstreamRequest)
    (h : callToolRaw name args up = (Except.error e, reqs)) :
    callTool name args up = (handleToolError e, reqs) ∧
    (handleToolError e).isError = true := by
  constructor
  · rw [callTool_eq_raw, h]
  · rfl

/-- C5 (witness): the `MethodNotFound` error raised for an unknown tool
name is caught and surfaced as an `isError` response. -/
theorem dispatcher_catches_all_errors_witness :
    callTool "mystery_tool" none ⟨fun _ => Except.ok [], fun _ => Except.ok []⟩
      = (handleToolError (ThrownError.mcp ⟨ErrorCode.MethodNotFound,
          "Tool \'mystery_tool\' not found.", none⟩), []) ∧
    (handleToolError (ThrownError.mcp ⟨ErrorCode.MethodNotFound,
        "Tool \'mystery_tool\' not found.", none⟩)).isError = true :=
  dispatcher_catches_all_errors "mystery_tool" none _
    (ThrownError.mcp ⟨ErrorCode.MethodNotFound,
      "Tool \'mystery_tool\' not found.", none⟩) [] rfl

/-- C6: on an upstream success response honoring the one-translation-per-
input contract, the handler returns exactly one text content block with
mime type `application/json` holding the translations serialized with
indentation 2, and decoding the block back yields the same ordered
sequence, whose length equals the input `text` length. -/
theorem translate_success_content_roundtrip (args : Option JValue)
    (v : TranslateRequest) (ts : List DeepLTranslation) (up : Upstream)
    (hv : parseTranslateArgs args = Except.ok v)
    (hu : up.translate (mkTranslateBody v) = Except.ok ts)
    (hlen : ts.length = v.text.length) :
    (callTool "translate_text" args up).1 =
      { content := [⟨"text", String.mk (serializeTranslations ts),
          some "application/json"⟩],
        isError := false, errorCode := none } ∧
    decodeTranslations (serializeTranslations ts) = some ts ∧
    ts.length = v.text.length := by
  refine ⟨?_, decodeTranslations_serialize ts, hlen⟩
  rw [callTool_eq_raw, callToolRaw_translate]
  unfold callTranslateText
  simp only [hv, hu]

/-- C6 (witness): the spec's example — two input strings, target `DE`,
upstream returning the two German translations. -/
theorem translate_success_content_roundtrip_witness :
    (callTool "translate_text" (some (JValue.obj
        [("text", JValue.arr [JValue.str "Hello world", JValue.str "How are you?"]),
         ("target_lang", JValue.str "DE")]))
      ⟨fun _ => Except.ok [⟨"EN", "Hallo Welt"⟩, ⟨"EN", "Wie geht es dir?"⟩],
       fun _ => Except.ok []⟩).1 =
      { content := [⟨"text", String.mk (serializeTranslations
          [⟨"EN", "Hallo Welt"⟩, ⟨"EN", "Wie geht es dir?"⟩]),
          some "application/json"⟩],
        isError := false, errorCode := none } ∧
    decodeTranslations (serializeTranslations
      [⟨"EN", "Hallo Welt"⟩, ⟨"EN", "Wie geht es dir?"⟩])
      = some [⟨"EN", "Hallo Welt"⟩, ⟨"EN", "Wie geht es dir?"⟩] ∧
    ([⟨"EN", "Hallo Welt"⟩, ⟨"EN", "Wie geht es dir?"⟩] : List DeepLTranslation).length
      = (["Hello world", "How are you?"] : List String).length :=
  translate_success_content_roundtrip _
    ⟨["Hello world", "How are you?"], "DE", none⟩ _ _ rfl rfl rfl

/-- C7: for every accepted `list_languages` invocation, the arguments were
an object whose `type` was absent or the string `source` or `target`, and
the issued GET carries the `type` query parameter exactly when `type` was
present. -/
theorem list_languages_type_filter (args : Option JValue)
    (v : ListLanguagesRequest) (up : Upstream)
    (h : parseListArgs args = Except.ok v) :
    (∃ fields, args = some (JValue.obj fields) ∧
      ((jGet fields "type" = none ∧ v.type = none) ∨
       (jGet fields "type" = some (JValue.str "source") ∧ v.type = some LangType.source) ∨
       (jGet fields "type" = some (JValue.str "target") ∧ v.type = some LangType.target))) ∧
    (callTool "list_languages" args up).2 = [UpstreamRequest.getLanguages v.type] := by
  refine ⟨parseListArgs_ok args v h, ?_⟩
  have h2 : (callTool "list_languages" args up).2 = (callListLanguages args up).2 := by
    rw [callTool_eq_raw, callToolRaw_list]
  rw [h2]
  exact callListLanguages_requests args v up h

/-- C7 (witness): `type: "source"` yields a GET carrying exactly that
query parameter. -/
theorem list_languages_type_filter_witness :
    (callTool "list_languages" (some (JValue.obj [("type", JValue.str "source")]))
      ⟨fun _ => Except.ok [], fun _ => Except.ok []⟩).2
      = [UpstreamRequest.getLanguages (some LangType.source)] :=
  (list_languages_type_filter (some (JValue.obj [("type", JValue.str "source")]))
    ⟨some LangType.source⟩ ⟨fun _ => Except.ok [], fun _ => Except.ok []⟩ rfl).2

/-- C8: a schema-validation failure of either tool's arguments is
normalized to an `InvalidParams` error with message
`Input validation failed` and the list of per-field issues as details,
and the dispatcher returns exactly that normalized response. -/
theorem validation_failure_invalid_params (args : Option JValue)
    (issues : List ZodIssue) (up : Upstream) :
    (toMcpError (ThrownError.zod issues) =
      ⟨ErrorCode.InvalidParams, "Input validation failed", some (issuesToJson issues)⟩) ∧
    (parseTranslateArgs args = Except.error issues →
       (callTool "translate_text" args up).1
         = handleToolError (ThrownError.zod issues)) ∧
    (parseListArgs args = Except.error issues →
       (callTool "list_languages" args up).1
         = handleToolError (ThrownError.zod issues)) := by
  refine ⟨rfl, ?_, ?_⟩
  · intro hp
    rw [callTool_eq_raw, callToolRaw_translate,
        callTranslateText_error args issues up hp]
  · intro hp
    rw [callTool_eq_raw, callToolRaw_list,
        callListLanguages_error args issues up hp]

/-- C8 (witness): the missing-payload failure of both tools. -/
theorem validation_failure_invalid_params_witness :
    (toMcpError (ThrownError.zod [⟨"invalid_type", [], "Required"⟩]) =
      ⟨ErrorCode.InvalidParams, "Input validation failed",
        some (issuesToJson [⟨"invalid_type", [], "Required"⟩])⟩) ∧
    (callTool "translate_text" none
        ⟨fun _ => Except.ok [], fun _ => Except.ok []⟩).1
      = handleToolError (ThrownError.zod [⟨"invalid_type", [], "Required"⟩]) ∧
    (callTool "list_languages" none
        ⟨fun _ => Except.ok [], fun _ => Except.ok []⟩).1
      = handleToolError (ThrownError.zod [⟨"invalid_type", [], "Required"⟩]) :=
  have hw := validation_failure_invalid_params none [⟨"invalid_type", [], "Required"⟩]
    ⟨fun _ => Except.ok [], fun _ => Except.ok []⟩
  ⟨hw.1, hw.2.1 rfl, hw.2.2 rfl⟩

/-- C9: every normalized error response consists of one text block of the
form `Error: <message>`, with a `Details: <json>` line appended exactly
when the error carries truthy structured data, flagged as an error with
its code. -/
theorem error_text_format (m : McpError) :
    (dataTruthy m.data = true →
      (formatErrorResponse m).content =
        [⟨"text", "Error: " ++ m.message ++ "\nDetails: " ++ jserializeOpt m.data,
          none⟩]) ∧
    (dataTruthy m.data = false →
      (formatErrorResponse m).content = [⟨"text", "Error: " ++ m.message, none⟩]) ∧
    (formatErrorResponse m).isError = true ∧
    (formatErrorResponse m).errorCode = some m.code := by
  obtain ⟨code, message, data⟩ := m
  cases data with
  | none =>
    refine ⟨fun h => ?_, fun _ => ?_, rfl, rfl⟩
    · simp [dataTruthy] at h
    · simp [formatErrorResponse]
  | some d =>
    refine ⟨fun h => ?_, fun h => ?_, rfl, rfl⟩
    · have hd : d.truthy = true := h
      simp [formatErrorResponse, hd, jserializeOpt, String.append_assoc]
    · have hd : d.truthy = false := h
      simp [formatErrorResponse, hd]

/-- C9 (witness): a truthy `data` field produces the `Details:` line. -/
theorem error_text_format_witness :
    (formatErrorResponse ⟨ErrorCode.InternalError, "boom",
        some (JValue.arr [JValue.num 1])⟩).content =
      [⟨"text", "Error: " ++ "boom" ++ "\nDetails: " ++
        jserializeOpt (some (JValue.arr [JValue.num 1])), none⟩] :=
  (error_text_format ⟨ErrorCode.InternalError, "boom",
    some (JValue.arr [JValue.num 1])⟩).1 rfl

/-- C10: an upstream failure with no HTTP response at all (pure
network/transport failure) is classified `InternalError`, its message
renders the undefined status and the transport-level error message, and
it carries no details. -/
theorem transport_failure_internal_error (msg : String) :
    toMcpError (ThrownError.axios none msg) =
      ⟨ErrorCode.InternalError, "DeepL API Error (undefined): " ++ msg, none⟩ := rfl

end DeepLMcp
